import Mathlib

/-!
# Verification of the BeringLab event-driven-library message bus

Shallow embedding of the repository's core:

* `src/event-driven-core/src/messagebus.rs` — `MessageBus::handle`,
  `MessageBus::handle_event`, the `ContextManager` event queue, and the
  macro-generated handler registries;
* `src/ruva-macro/src/result.rs` — the `From` conversions generated by
  `#[derive(ApplicationError)]` (`render_error_token`);
* `src/macros/lib_macros/src/lib.rs` — the topic produced by the
  `Message` derive (`impl_new`).

Rust `async` handlers always run to completion sequentially inside one
`handle` invocation (the bus awaits each one before proceeding), so a
handler is embedded as a pure function from the message it receives to
its result together with the list of events it pushes onto the shared
context queue while it runs.  The context queue (a `VecDeque` behind an
`RwLock`) is threaded explicitly as a `List Msg` whose head is the
front.  The outer drain loop of `handle` may diverge if handlers keep
pushing events, so it takes explicit fuel; all theorems below hold for
every fuel value.
-/

/-- A message (command or event).  `metadata()` in the source exposes
`aggregate_id` and `topic`; only those fields are consumed by the bus. -/
structure Msg where
  aggregate_id : String
  topic : String
  deriving DecidableEq, Repr

/-- Modelled from the spec: the `BaseError` enum lives in
`event-driven-core/src/responses.rs`, which is not among the provided
sources; its variants are the closed signal set the spec lists
(`CommandNotFound`, `EventNotFound`, `StopSentinel`,
`StopSentinelWithEvent(event)`, `DatabaseError(cause)`, `ServiceError`),
matched exactly by the variants `messagebus.rs` and `result.rs`
pattern-match on.  The `Arc<dyn TEvent>` payload of
`StopSentinelWithEvent` is a message; the boxed cause of
`DatabaseError` is kept as a string. -/
inductive BaseError where
  | CommandNotFound : BaseError
  | EventNotFound : BaseError
  | StopSentinel : BaseError
  | StopSentinelWithEvent : Msg → BaseError
  | DatabaseError : String → BaseError
  | ServiceError : BaseError
  deriving DecidableEq, Repr

/-- An application error type produced by `#[derive(ApplicationError)]`
with the canonical variant names (`render_error_token` substitutes
custom idents, which is pure renaming): the three distinguished
variants, the mandatory `BaseError(BaseError)` wrapping variant that the
generated `From<BaseError>` catch-all targets, and `Custom` standing for
the application's own domain-error variants. -/
inductive AppError where
  | StopSentinel : AppError
  | StopSentinelWithEvent : Msg → AppError
  | DatabaseError : String → AppError
  | BaseError : BaseError → AppError
  | Custom : Nat → AppError
  deriving DecidableEq, Repr

/-- `impl ::std::convert::From<BaseError> for #name` generated by
`render_error_token` (src/ruva-macro/src/result.rs lines 79-88). -/
def from_base : BaseError → AppError
  | .StopSentinel => .StopSentinel
  | .StopSentinelWithEvent event => .StopSentinelWithEvent event
  | .DatabaseError error => .DatabaseError error
  | err => .BaseError err

/-- `impl ::std::convert::From<#name> for BaseError` generated by
`render_error_token` (src/ruva-macro/src/result.rs lines 90-101): the
catch-all arm collapses every remaining variant to `ServiceError`. -/
def to_base : AppError → BaseError
  | .StopSentinel => .StopSentinel
  | .StopSentinelWithEvent event => .StopSentinelWithEvent event
  | .DatabaseError error => .DatabaseError error
  | _ => .ServiceError

/-- A command value: `cid` is the `TypeId` of its concrete type (the
key `MessageBus::handle` looks up), `data` its payload. -/
structure Cmd where
  cid : Nat
  data : Nat
  deriving DecidableEq, Repr

/-- An entry of the command registry `TCommandHandler`: the handler
function, applied to the command, yields its `Result<R, E>` together
with the events it pushed onto the shared context queue while running. -/
structure CmdHandler (R E : Type) where
  run : Cmd → Except E R × List Msg

/-- An entry of an event-handler list in `TEventHandler`: `hid` is the
handler's identity (used only by the execution trace), `run` applied to
the event clone yields the handler's `Result<R, E>` and the events it
pushed onto the shared context queue while running. -/
structure EvHandler (R E : Type) where
  hid : Nat
  run : Msg → Except E R × List Msg

/-- Trace of the observable actions of one `handle` invocation:
the command handler ran; an event was popped off the queue and handed
to `handle_event`; an event handler was invoked on a message; the drain
loop logged an error returned by `handle_event`. -/
inductive TraceEntry (E : Type) where
  | cmdRun : Nat → TraceEntry E
  | dispatch : Msg → TraceEntry E
  | invoke : Nat → Msg → TraceEntry E
  | evError : E → TraceEntry E
  deriving DecidableEq, Repr

/-- `MessageBus` (src/event-driven-core/src/messagebus.rs lines 44-56):
the two `'static` registries, plus the `From<BaseError>`/`Into<BaseError>`
bounds on `E` embedded as explicit conversion functions. -/
structure MessageBus (R E : Type) where
  toBase : E → BaseError
  fromBase : BaseError → E
  command_handler : Nat → Option (CmdHandler R E)
  event_handler : String → Option (List (EvHandler R E))

namespace MessageBus

variable {R E : Type}

/-- The `for handler in handlers.iter()` loop of `handle_event`
(messagebus.rs lines 95-118).  Each handler runs on a clone of `msg`;
its pushes are appended to the back of the shared queue while it runs;
then its result is inspected: `Ok` continues, `err.into()` matching
`StopSentinel` breaks, `StopSentinelWithEvent(event)` pushes `event` to
the back and breaks, any other error is logged and the loop continues.
Returns the queue after the loop and the trace of handler invocations. -/
def runHandlers (bus : MessageBus R E) :
    List (EvHandler R E) → Msg → List Msg → List Msg × List (TraceEntry E)
  | [], _, queue => (queue, [])
  | h :: rest, msg, queue =>
    let out := h.run msg
    let queue' := queue ++ out.2
    match out.1 with
    | .ok _ =>
      let next := runHandlers bus rest msg queue'
      (next.1, .invoke h.hid msg :: next.2)
    | .error e =>
      match bus.toBase e with
      | .StopSentinel => (queue', [.invoke h.hid msg])
      | .StopSentinelWithEvent event => (queue' ++ [event], [.invoke h.hid msg])
      | _ =>
        let next := runHandlers bus rest msg queue'
        (next.1, .invoke h.hid msg :: next.2)

/-- `MessageBus::handle_event` (messagebus.rs lines 86-121): look up the
handler list under `msg.metadata().topic`; if absent fail with
`BaseError::EventNotFound` (converted into `E` by the `?` operator)
touching neither the queue nor any handler; otherwise run the handler
loop and return `Ok(())`. -/
def handle_event (bus : MessageBus R E) (msg : Msg) (queue : List Msg) :
    Except E Unit × List Msg × List (TraceEntry E) :=
  match bus.event_handler msg.topic with
  | none => (.error (bus.fromBase .EventNotFound), queue, [])
  | some handlers =>
    let next := bus.runHandlers handlers msg queue
    (.ok (), next.1, next.2)

/-- The `'event_handling_loop` of `MessageBus::handle` (messagebus.rs
lines 71-82): pop the front of the context queue; if empty, stop;
otherwise hand the event to `handle_event`, log its error if any, and
loop.  The loop can run forever if handlers keep pushing events, so it
takes fuel; one unit is spent per popped event. -/
def drain (bus : MessageBus R E) : Nat → List Msg → List (TraceEntry E)
  | _, [] => []
  | 0, _ :: _ => []
  | fuel + 1, m :: rest =>
    match bus.handle_event m rest with
    | (.ok _, q2, tr) => .dispatch m :: (tr ++ bus.drain fuel q2)
    | (.error e, q2, tr) => .dispatch m :: (tr ++ .evError e :: bus.drain fuel q2)

/-- `MessageBus::handle` (messagebus.rs lines 58-84): create a fresh
empty context queue; look up the command handler by the command's type
identity, failing with `BaseError::CommandNotFound` (converted into `E`)
if absent; run it (`?` propagates its own error); then drain the queue
the handler filled, and finally return the handler's result. -/
def handle (bus : MessageBus R E) (c : Cmd) (fuel : Nat) :
    Except E R × List (TraceEntry E) :=
  match bus.command_handler c.cid with
  | none => (.error (bus.fromBase .CommandNotFound), [])
  | some h =>
    match h.run c with
    | (.error e, _) => (.error e, [.cmdRun c.cid])
    | (.ok r, pushes) => (.ok r, .cmdRun c.cid :: bus.drain fuel pushes)

end MessageBus

/-- The events popped and dispatched, in order, along a trace. -/
def dispatches {E : Type} (tr : List (TraceEntry E)) : List Msg :=
  tr.filterMap fun t =>
    match t with
    | .dispatch m => some m
    | _ => none

/-- A handler `g`, run on `msg`, neither succeeds with a sentinel nor…
rather: if it fails, its error reduces to neither `StopSentinel` nor
`StopSentinelWithEvent`, so the handler loop continues past it. -/
def continues {R E : Type} (bus : MessageBus R E) (g : EvHandler R E) (msg : Msg) : Prop :=
  ∀ e, (g.run msg).1 = .error e →
    bus.toBase e ≠ .StopSentinel ∧ ∀ X, bus.toBase e ≠ .StopSentinelWithEvent X

/-- The topic `metadata()` reports for an instance of an event type
derived with the `Message` macro: `impl_new`
(src/macros/lib_macros/src/lib.rs lines 20-26) emits
`topic: stringify!(#name).into()`, the type's own name. -/
def derived_topic (type_name : String) : String := type_name

/-- The key under which `init_event_handler` (messagebus.rs line 199)
stores a type's handler list: `stringify!($event)`, again the type's
own name. -/
def event_registration_key (type_name : String) : String := type_name

/-- The registry `init_event_handler` builds (messagebus.rs lines
193-221): one `HashMap::insert` per declared event type, in declaration
order, a later insertion for the same key overriding an earlier one. -/
def build_event_handler {R E : Type} (regs : List (String × List (EvHandler R E))) :
    String → Option (List (EvHandler R E)) :=
  regs.foldl
    (fun acc kv t => if t = event_registration_key kv.1 then some kv.2 else acc t)
    (fun _ => none)

/-- Concrete events used by the witnesses: two registered topics and a
ghost topic with no registered handlers. -/
def evAW : Msg := ⟨"agg-a", "A"⟩

def evBW : Msg := ⟨"agg-b", "B"⟩

def evGW : Msg := ⟨"agg-g", "G"⟩

def evSW : Msg := ⟨"agg-s", "S"⟩

/-- Witness handler: succeeds, pushes nothing. -/
def hOkW : EvHandler Nat AppError := ⟨1, fun _ => (.ok 0, [])⟩

/-- Witness handler: succeeds and pushes one event. -/
def hPushW : EvHandler Nat AppError := ⟨2, fun _ => (.ok 0, [evBW])⟩

/-- Witness handler: fails with a plain domain error. -/
def hFailW : EvHandler Nat AppError := ⟨3, fun _ => (.error (.Custom 7), [])⟩

/-- Witness handler: fails with the stop sentinel. -/
def hStopW : EvHandler Nat AppError := ⟨4, fun _ => (.error .StopSentinel, [])⟩

/-- Witness handler: fails with the stop sentinel carrying `evBW`. -/
def hStopEvtW : EvHandler Nat AppError := ⟨5, fun _ => (.error (.StopSentinelWithEvent evBW), [])⟩

/-- Witness command handler: succeeds and pushes two events. -/
def chOkW : CmdHandler Nat AppError := ⟨fun c => (.ok (c.data + 40), [evAW, evGW])⟩

/-- Witness command handler: fails outright. -/
def chErrW : CmdHandler Nat AppError := ⟨fun _ => (.error (.Custom 9), [])⟩

/-- Witness bus over `R = Nat`, `E = AppError`, with the macro-derived
conversions and two registered topics. -/
def busW : MessageBus Nat AppError where
  toBase := to_base
  fromBase := from_base
  command_handler := fun cid =>
    if cid = 1 then some chOkW else if cid = 2 then some chErrW else none
  event_handler := fun t =>
    if t = "A" then some [hFailW, hPushW, hOkW]
    else if t = "B" then some [hOkW]
    else if t = "S" then some [hOkW, hStopW, hPushW] else none

namespace MessageBus

variable {R E : Type}

lemma runHandlers_nil (bus : MessageBus R E) (msg : Msg) (q : List Msg) :
    bus.runHandlers [] msg q = (q, []) := rfl

lemma runHandlers_cons_ok (bus : MessageBus R E) (h : EvHandler R E)
    (rest : List (EvHandler R E)) (msg : Msg) (q : List Msg) (v : R)
    (hok : (h.run msg).1 = .ok v) :
    bus.runHandlers (h :: rest) msg q =
      ((bus.runHandlers rest msg (q ++ (h.run msg).2)).1,
       .invoke h.hid msg :: (bus.runHandlers rest msg (q ++ (h.run msg).2)).2) := by
  simp only [runHandlers, hok]

lemma runHandlers_cons_other (bus : MessageBus R E) (h : EvHandler R E)
    (rest : List (EvHandler R E)) (msg : Msg) (q : List Msg) (e : E)
    (herr : (h.run msg).1 = .error e)
    (hs : bus.toBase e ≠ .StopSentinel)
    (hsw : ∀ X, bus.toBase e ≠ .StopSentinelWithEvent X) :
    bus.runHandlers (h :: rest) msg q =
      ((bus.runHandlers rest msg (q ++ (h.run msg).2)).1,
       .invoke h.hid msg :: (bus.runHandlers rest msg (q ++ (h.run msg).2)).2) := by
  simp only [runHandlers, herr]

lemma runHandlers_cons_stop (bus : MessageBus R E) (h : EvHandler R E)
    (rest : List (EvHandler R E)) (msg : Msg) (q : List Msg) (e : E)
    (herr : (h.run msg).1 = .error e)
    (hs : bus.toBase e = .StopSentinel) :
    bus.runHandlers (h :: rest) msg q =
      (q ++ (h.run msg).2, [.invoke h.hid msg]) := by
  simp only [runHandlers, herr, hs]

lemma runHandlers_cons_stop_event (bus : MessageBus R E) (h : EvHandler R E)
    (rest : List (EvHandler R E)) (msg : Msg) (q : List Msg) (e : E) (X : Msg)
    (herr : (h.run msg).1 = .error e)
    (hs : bus.toBase e = .StopSentinelWithEvent X) :
    bus.runHandlers (h :: rest) msg q =
      ((q ++ (h.run msg).2) ++ [X], [.invoke h.hid msg]) := by
  simp only [runHandlers, herr, hs]

lemma runHandlers_cons_continue (bus : MessageBus R E) (h : EvHandler R E)
    (rest : List (EvHandler R E)) (msg : Msg) (q : List Msg)
    (hcont : continues bus h msg) :
    bus.runHandlers (h :: rest) msg q =
      ((bus.runHandlers rest msg (q ++ (h.run msg).2)).1,
       .invoke h.hid msg :: (bus.runHandlers rest msg (q ++ (h.run msg).2)).2) := by
  rcases hr : (h.run msg).1 with e | v
  · obtain ⟨hss, hsw⟩ := hcont e hr
    exact bus.runHandlers_cons_other h rest msg q e hr hss hsw
  · exact bus.runHandlers_cons_ok h rest msg q v hr

/-- Handlers only ever append to the shared queue: whatever list of
handlers runs, the queue afterwards is the original queue followed by
some suffix of newly pushed events. -/
lemma runHandlers_queue_extend (bus : MessageBus R E) :
    ∀ (hs : List (EvHandler R E)) (msg : Msg) (q : List Msg),
      ∃ p, (bus.runHandlers hs msg q).1 = q ++ p := by
  intro hs
  induction hs with
  | nil => exact fun msg q => ⟨[], by simp [runHandlers_nil]⟩
  | cons h rest ih =>
    intro msg q
    rcases hr : (h.run msg).1 with e | v
    · rcases hb : bus.toBase e with _ | _ | _ | X | c | _
      case StopSentinel =>
        rw [bus.runHandlers_cons_stop h rest msg q e hr hb]
        exact ⟨(h.run msg).2, rfl⟩
      case StopSentinelWithEvent =>
        rw [bus.runHandlers_cons_stop_event h rest msg q e X hr hb]
        exact ⟨(h.run msg).2 ++ [X], by rw [List.append_assoc]⟩
      all_goals
        rw [bus.runHandlers_cons_other h rest msg q e hr (by simp [hb]) (by simp [hb])]
        obtain ⟨p, hp⟩ := ih msg (q ++ (h.run msg).2)
        exact ⟨(h.run msg).2 ++ p, by rw [hp, List.append_assoc]⟩
    · rw [bus.runHandlers_cons_ok h rest msg q v hr]
      obtain ⟨p, hp⟩ := ih msg (q ++ (h.run msg).2)
      exact ⟨(h.run msg).2 ++ p, by rw [hp, List.append_assoc]⟩

/-- The trace of one handler loop is the invocation, in order and on the
dispatched message, of precisely an initial segment of the registered
handler list. -/
lemma runHandlers_trace_take (bus : MessageBus R E) :
    ∀ (hs : List (EvHandler R E)) (msg : Msg) (q : List Msg),
      ∃ k, (bus.runHandlers hs msg q).2 =
        (hs.take k).map (fun g => TraceEntry.invoke g.hid msg) := by
  intro hs
  induction hs with
  | nil => exact fun msg q => ⟨0, by simp [runHandlers_nil]⟩
  | cons h rest ih =>
    intro msg q
    rcases hr : (h.run msg).1 with e | v
    · rcases hb : bus.toBase e with _ | _ | _ | X | c | _
      case StopSentinel =>
        rw [bus.runHandlers_cons_stop h rest msg q e hr hb]
        exact ⟨1, by simp⟩
      case StopSentinelWithEvent =>
        rw [bus.runHandlers_cons_stop_event h rest msg q e X hr hb]
        exact ⟨1, by simp⟩
      all_goals
        rw [bus.runHandlers_cons_other h rest msg q e hr (by simp [hb]) (by simp [hb])]
        obtain ⟨k, hk⟩ := ih msg (q ++ (h.run msg).2)
        exact ⟨k + 1, by simp [hk]⟩
    · rw [bus.runHandlers_cons_ok h rest msg q v hr]
      obtain ⟨k, hk⟩ := ih msg (q ++ (h.run msg).2)
      exact ⟨k + 1, by simp [hk]⟩

/-- Splitting the handler loop at a prefix of handlers that all
continue: every handler of `pre` is invoked in order, its pushes land at
the back of the queue, and the loop proceeds into `tail`. -/
lemma runHandlers_pre_split (bus : MessageBus R E) (msg : Msg) :
    ∀ (pre tail : List (EvHandler R E)) (q : List Msg),
      (∀ g ∈ pre, continues bus g msg) →
      ∃ p, bus.runHandlers (pre ++ tail) msg q =
        ((bus.runHandlers tail msg (q ++ p)).1,
         pre.map (fun g => TraceEntry.invoke g.hid msg) ++
           (bus.runHandlers tail msg (q ++ p)).2) := by
  intro pre
  induction pre with
  | nil => exact fun tail q _ => ⟨[], by simp⟩
  | cons g pre ih =>
    intro tail q hpre
    rw [List.cons_append,
      bus.runHandlers_cons_continue g (pre ++ tail) msg q (hpre g (by simp))]
    obtain ⟨p, hp⟩ := ih tail (q ++ (g.run msg).2) fun g' hg' => hpre g' (by simp [hg'])
    refine ⟨(g.run msg).2 ++ p, ?_⟩
    rw [hp, ← List.append_assoc]
    simp

end MessageBus

lemma dispatches_nil {E : Type} : dispatches ([] : List (TraceEntry E)) = [] := rfl

lemma dispatches_cons_dispatch {E : Type} (m : Msg) (l : List (TraceEntry E)) :
    dispatches (.dispatch m :: l) = m :: dispatches l := rfl

lemma dispatches_cons_invoke {E : Type} (i : Nat) (m : Msg) (l : List (TraceEntry E)) :
    dispatches (.invoke i m :: l) = dispatches l := rfl

lemma dispatches_cons_evError {E : Type} (e : E) (l : List (TraceEntry E)) :
    dispatches (.evError e :: l) = dispatches l := rfl

lemma dispatches_cons_cmdRun {E : Type} (c : Nat) (l : List (TraceEntry E)) :
    dispatches (.cmdRun c :: l) = dispatches l := rfl

lemma dispatches_append {E : Type} (a b : List (TraceEntry E)) :
    dispatches (a ++ b) = dispatches a ++ dispatches b :=
  List.filterMap_append ..

lemma dispatches_map_invoke {E : Type} (hs : List (EvHandler R E)) (msg : Msg) :
    dispatches (hs.map fun g => (TraceEntry.invoke g.hid msg : TraceEntry E)) = [] := by
  induction hs with
  | nil => rfl
  | cons h rest ih => simpa [dispatches_cons_invoke] using ih

namespace MessageBus

variable {R E : Type}

/-- The handler loop never records a dispatch: only the outer drain loop
pops events off the queue. -/
lemma runHandlers_dispatches_nil (bus : MessageBus R E)
    (hs : List (EvHandler R E)) (msg : Msg) (q : List Msg) :
    dispatches (bus.runHandlers hs msg q).2 = [] := by
  obtain ⟨k, hk⟩ := bus.runHandlers_trace_take hs msg q
  rw [hk]
  exact dispatches_map_invoke (hs.take k) msg

lemma drain_zero (bus : MessageBus R E) (q : List Msg) :
    bus.drain 0 q = [] := by
  cases q <;> rfl

lemma drain_nil (bus : MessageBus R E) (fuel : Nat) :
    bus.drain fuel [] = [] := by
  cases fuel <;> rfl

/-- One iteration of the drain loop on a registered topic: the front
event is popped and dispatched through its handler loop, then draining
resumes on the queue the handlers left behind. -/
lemma drain_succ_found (bus : MessageBus R E) (fuel : Nat) (m : Msg)
    (rest : List Msg) (hs : List (EvHandler R E))
    (hreg : bus.event_handler m.topic = some hs) :
    bus.drain (fuel + 1) (m :: rest) =
      .dispatch m :: ((bus.runHandlers hs m rest).2 ++
        bus.drain fuel (bus.runHandlers hs m rest).1) := by
  simp only [drain, handle_event, hreg]

/-- One iteration of the drain loop on an unregistered topic: the error
is logged and draining resumes on the untouched remaining queue. -/
lemma drain_succ_not_found (bus : MessageBus R E) (fuel : Nat) (m : Msg)
    (rest : List Msg)
    (hreg : bus.event_handler m.topic = none) :
    bus.drain (fuel + 1) (m :: rest) =
      .dispatch m :: .evError (bus.fromBase .EventNotFound) :: bus.drain fuel rest := by
  simp only [drain, handle_event, hreg, List.nil_append]

/-- FIFO drain: with `fuel` iterations available, the events dispatched
are exactly the first `fuel` elements of the starting queue, in queue
order, followed only by events that were pushed later. -/
lemma dispatches_drain_take (bus : MessageBus R E) :
    ∀ (fuel : Nat) (q : List Msg),
      ∃ t, dispatches (bus.drain fuel q) = q.take fuel ++ t := by
  intro fuel
  induction fuel with
  | zero => exact fun q => ⟨[], by simp [drain_zero, dispatches_nil]⟩
  | succ fuel ih =>
    intro q
    match q with
    | [] => exact ⟨[], by simp [drain_nil, dispatches_nil]⟩
    | m :: rest =>
      cases hreg : bus.event_handler m.topic with
      | none =>
        obtain ⟨t, ht⟩ := ih rest
        refine ⟨t, ?_⟩
        rw [bus.drain_succ_not_found fuel m rest hreg, dispatches_cons_dispatch,
          dispatches_cons_evError, ht, List.take_succ_cons, List.cons_append]
      | some hs =>
        obtain ⟨p, hp⟩ := bus.runHandlers_queue_extend hs m rest
        obtain ⟨t, ht⟩ := ih (bus.runHandlers hs m rest).1
        refine ⟨p.take (fuel - rest.length) ++ t, ?_⟩
        rw [bus.drain_succ_found fuel m rest hs hreg, dispatches_cons_dispatch,
          dispatches_append, bus.runHandlers_dispatches_nil, List.nil_append, ht,
          hp, List.take_succ_cons, List.take_append_eq_append_take, List.append_assoc,
          List.cons_append]

end MessageBus

lemma foldl_insert_lookup_ne_none {R E : Type} :
    ∀ (regs : List (String × List (EvHandler R E)))
      (acc : String → Option (List (EvHandler R E))) (t : String),
      ((∃ hs, (t, hs) ∈ regs) ∨ acc t ≠ none) →
      regs.foldl
        (fun acc kv t => if t = event_registration_key kv.1 then some kv.2 else acc t)
        acc t ≠ none := by
  intro regs
  induction regs with
  | nil =>
    intro acc t h
    rcases h with ⟨hs, hmem⟩ | hacc
    · cases hmem
    · simpa using hacc
  | cons kv regs ih =>
    intro acc t h
    rw [List.foldl_cons]
    apply ih
    rcases h with ⟨hs, hmem⟩ | hacc
    · rcases List.mem_cons.mp hmem with heq | hmem'
      · right
        simp [← heq, event_registration_key]
      · exact .inl ⟨hs, hmem'⟩
    · right
      by_cases ht : t = event_registration_key kv.1
      · simp [ht]
      · simpa [ht] using hacc

/-- C1: for every command whose type is registered, `handle` returns to
its caller exactly the result the registered command handler produced —
`Ok(r)` is returned as `Ok(r)` no matter what happens while the context
queue is drained (the bus is universally quantified, so event handlers
may fail, raise sentinels, or hit unregistered topics), and `Err(e)` is
returned as exactly `Err(e)`. -/
theorem handle_returns_command_handler_result {R E : Type}
    (bus : MessageBus R E) (c : Cmd) (h : CmdHandler R E) (fuel : Nat)
    (hreg : bus.command_handler c.cid = some h) :
    (bus.handle c fuel).1 = (h.run c).1 := by
  rcases hr : h.run c with ⟨res, pushes⟩
  cases res <;> simp [MessageBus.handle, hreg, hr]

/-- Witness for C1 on the concrete bus: the command with type identity
1 is registered to `chOkW`, whose pushed events hit a failing handler
and a ghost topic, and `handle` still returns `chOkW`'s own result. -/
theorem handle_returns_command_handler_result_witness :
    busW.command_handler (Cmd.mk 1 2).cid = some chOkW ∧
    (busW.handle (Cmd.mk 1 2) 5).1 = (chOkW.run (Cmd.mk 1 2)).1 :=
  ⟨rfl, handle_returns_command_handler_result busW (Cmd.mk 1 2) chOkW 5 rfl⟩

/-- C2 (counterexample): the conversions generated by
`#[derive(ApplicationError)]` are not lossless on the base signals —
converting `BaseError::CommandNotFound` into the application error type
and back yields `ServiceError`, not the original value (and likewise
for `EventNotFound`). -/
theorem base_error_roundtrip_counterexample :
    to_base (from_base .CommandNotFound) = .ServiceError ∧
    to_base (from_base .CommandNotFound) ≠ .CommandNotFound ∧
    to_base (from_base .EventNotFound) ≠ .EventNotFound ∧
    from_base (to_base (.Custom 7)) ≠ .Custom 7 := by
  refine ⟨rfl, ?_, ?_, ?_⟩ <;> decide

/-- C2 (amended): the round trip `BaseError → app error → BaseError` is
the identity exactly on `StopSentinel`, `StopSentinelWithEvent`,
`DatabaseError` and `ServiceError`, while `CommandNotFound` and
`EventNotFound` come back as `ServiceError`; the round trip
`app error → BaseError → app error` is the identity exactly on the
`stop_sentinel`, `stop_sentinel_with_event` and `database_error`
variants and on `BaseError(ServiceError)`. -/
theorem base_error_roundtrip_characterization :
    (∀ b : BaseError, to_base (from_base b) = b ↔
       b ≠ .CommandNotFound ∧ b ≠ .EventNotFound) ∧
    (∀ a : AppError, from_base (to_base a) = a ↔
       (a = .StopSentinel ∨ (∃ e, a = .StopSentinelWithEvent e) ∨
        (∃ c, a = .DatabaseError c) ∨ a = .BaseError .ServiceError)) := by
  constructor
  · intro b; cases b <;> simp [from_base, to_base]
  · intro a; cases a <;> simp [from_base, to_base, eq_comm]

/-- C3: events are dispatched strictly FIFO — the handler loop only
ever appends to the shared queue, each drain iteration pops the front
of the queue and dispatches it, and with `fuel` iterations available
the dispatched events are exactly the first `fuel` events of the queue
in queue order followed only by events pushed later; hence an event
pushed during a handler's invocation is dispatched only after all
events queued before that invocation. -/
theorem event_dispatch_fifo {R E : Type} (bus : MessageBus R E) :
    (∀ (hs : List (EvHandler R E)) (msg : Msg) (q : List Msg),
       ∃ p, (bus.runHandlers hs msg q).1 = q ++ p) ∧
    (∀ (fuel : Nat) (m : Msg) (rest : List Msg),
       ∃ tr, bus.drain (fuel + 1) (m :: rest) = .dispatch m :: tr) ∧
    (∀ (fuel : Nat) (q : List Msg),
       ∃ t, dispatches (bus.drain fuel q) = q.take fuel ++ t) := by
  refine ⟨bus.runHandlers_queue_extend, ?_, bus.dispatches_drain_take⟩
  intro fuel m rest
  cases hreg : bus.event_handler m.topic with
  | none => exact ⟨_, bus.drain_succ_not_found fuel m rest hreg⟩
  | some hs => exact ⟨_, bus.drain_succ_found fuel m rest hs hreg⟩

/-- C4: a command whose concrete type has no registry entry makes
`handle` return `Err(E::from(BaseError::CommandNotFound))` with an
empty trace: the command handler is never invoked and no event is ever
dispatched. -/
theorem handle_command_not_found {R E : Type}
    (bus : MessageBus R E) (c : Cmd) (fuel : Nat)
    (hreg : bus.command_handler c.cid = none) :
    bus.handle c fuel = (.error (bus.fromBase .CommandNotFound), []) := by
  simp [MessageBus.handle, hreg]

/-- Witness for C4: type identity 99 is not registered on the concrete
bus. -/
theorem handle_command_not_found_witness :
    busW.command_handler (Cmd.mk 99 0).cid = none ∧
    busW.handle (Cmd.mk 99 0) 5 = (.error (busW.fromBase .CommandNotFound), []) :=
  ⟨rfl, handle_command_not_found busW (Cmd.mk 99 0) 5 rfl⟩

/-- C5: when a handler in an event's list fails with an error reducing
to `StopSentinelWithEvent(X)` (and the handlers before it let the loop
continue), the handlers after it are not invoked, `X` ends up as the
very last element of the shared queue, and draining that queue
dispatches every previously queued event before `X`. -/
theorem stop_sentinel_with_event_requeues {R E : Type} (bus : MessageBus R E)
    (pre rest : List (EvHandler R E)) (h : EvHandler R E) (msg : Msg)
    (q : List Msg) (e : E) (X : Msg)
    (hpre : ∀ g ∈ pre, continues bus g msg)
    (herr : (h.run msg).1 = .error e)
    (hred : bus.toBase e = .StopSentinelWithEvent X) :
    (bus.runHandlers (pre ++ h :: rest) msg q).2 =
      (pre ++ [h]).map (fun g => TraceEntry.invoke g.hid msg) ∧
    ∃ p, (bus.runHandlers (pre ++ h :: rest) msg q).1 = (q ++ p) ++ [X] ∧
      ∀ fuel, ∃ t, dispatches (bus.drain fuel ((q ++ p) ++ [X])) =
        ((q ++ p) ++ [X]).take fuel ++ t := by
  obtain ⟨p0, hsplit⟩ := bus.runHandlers_pre_split msg pre (h :: rest) q hpre
  rw [hsplit, bus.runHandlers_cons_stop_event h rest msg (q ++ p0) e X herr hred]
  refine ⟨by simp, p0 ++ (h.run msg).2, ?_, fun fuel => bus.dispatches_drain_take fuel _⟩
  simp [List.append_assoc]

/-- Witness for C5: on the concrete bus, `hStopEvtW` (stopping with the
carried event `evBW`) heads a list followed by `hOkW`; `hOkW` is never
invoked and `evBW` is appended behind the already-queued event. -/
theorem stop_sentinel_with_event_requeues_witness :
    (hStopEvtW.run evAW).1 = .error (.StopSentinelWithEvent evBW) ∧
    busW.toBase (.StopSentinelWithEvent evBW) = .StopSentinelWithEvent evBW ∧
    ((busW.runHandlers ([] ++ hStopEvtW :: [hOkW]) evAW [evBW]).2 =
       ((([] : List (EvHandler Nat AppError)) ++ [hStopEvtW]).map
         fun g => TraceEntry.invoke g.hid evAW) ∧
     ∃ p, (busW.runHandlers ([] ++ hStopEvtW :: [hOkW]) evAW [evBW]).1 =
         ([evBW] ++ p) ++ [evBW] ∧
       ∀ fuel, ∃ t, dispatches (busW.drain fuel (([evBW] ++ p) ++ [evBW])) =
         (([evBW] ++ p) ++ [evBW]).take fuel ++ t) :=
  ⟨rfl, rfl,
    stop_sentinel_with_event_requeues busW [] [hOkW] hStopEvtW evAW [evBW]
      (.StopSentinelWithEvent evBW) evBW (by simp) rfl rfl⟩

/-- C6: when a handler fails with an error reducing to `StopSentinel`
(and the handlers before it let the loop continue), the handlers after
it in the same list are not invoked, `handle_event` still returns
`Ok(())`, and the outer drain loop carries on: draining `msg :: q` is
the dispatch of `msg`, the trace of the truncated handler loop, then
the drain of the remaining queue, whose next event is popped normally. -/
theorem stop_sentinel_halts_only_current_event {R E : Type} (bus : MessageBus R E)
    (pre rest : List (EvHandler R E)) (h : EvHandler R E) (msg : Msg)
    (q : List Msg) (e : E) (fuel : Nat)
    (hpre : ∀ g ∈ pre, continues bus g msg)
    (herr : (h.run msg).1 = .error e)
    (hred : bus.toBase e = .StopSentinel)
    (hreg : bus.event_handler msg.topic = some (pre ++ h :: rest)) :
    (bus.runHandlers (pre ++ h :: rest) msg q).2 =
      (pre ++ [h]).map (fun g => TraceEntry.invoke g.hid msg) ∧
    (bus.handle_event msg q).1 = .ok () ∧
    ∃ p, bus.drain (fuel + 1) (msg :: q) =
      .dispatch msg :: ((pre ++ [h]).map (fun g => TraceEntry.invoke g.hid msg)
        ++ bus.drain fuel (q ++ p)) := by
  obtain ⟨p0, hsplit⟩ := bus.runHandlers_pre_split msg pre (h :: rest) q hpre
  have htrace : (bus.runHandlers (pre ++ h :: rest) msg q).2 =
      (pre ++ [h]).map (fun g => TraceEntry.invoke g.hid msg) := by
    rw [hsplit, bus.runHandlers_cons_stop h rest msg (q ++ p0) e herr hred]
    simp
  have hqueue : (bus.runHandlers (pre ++ h :: rest) msg q).1 =
      q ++ (p0 ++ (h.run msg).2) := by
    rw [hsplit, bus.runHandlers_cons_stop h rest msg (q ++ p0) e herr hred,
      List.append_assoc]
  refine ⟨htrace, by simp [MessageBus.handle_event, hreg],
    p0 ++ (h.run msg).2, ?_⟩
  rw [bus.drain_succ_found fuel msg q (pre ++ h :: rest) hreg, htrace, hqueue]

/-- Witness for C6 on the concrete bus: topic `"S"` is registered to
`[hOkW, hStopW, hPushW]`; `hStopW` stops the chain, `hPushW` is never
invoked, and the drain loop proceeds with the remaining queue. -/
theorem stop_sentinel_halts_only_current_event_witness :
    (hStopW.run evSW).1 = .error .StopSentinel ∧
    busW.toBase .StopSentinel = .StopSentinel ∧
    busW.event_handler evSW.topic = some ([hOkW] ++ hStopW :: [hPushW]) ∧
    ((busW.runHandlers ([hOkW] ++ hStopW :: [hPushW]) evSW [evBW]).2 =
       (([hOkW] ++ [hStopW]).map fun g => TraceEntry.invoke g.hid evSW) ∧
     (busW.handle_event evSW [evBW]).1 = .ok () ∧
     ∃ p, busW.drain (3 + 1) (evSW :: [evBW]) =
       .dispatch evSW :: (([hOkW] ++ [hStopW]).map (fun g => TraceEntry.invoke g.hid evSW)
         ++ busW.drain 3 ([evBW] ++ p))) :=
  ⟨rfl, rfl, rfl,
    stop_sentinel_halts_only_current_event busW [hOkW] [hPushW] hStopW evSW
      [evBW] .StopSentinel 3 (by simp [continues, hOkW]) rfl rfl rfl⟩

/-- C7: the handlers invoked for a dispatched event are always an
initial segment of its registered list, invoked in registration order;
a handler failing with an error that reduces neither to `StopSentinel`
nor to `StopSentinelWithEvent` does not stop the loop — execution
continues with the remaining handlers — and `handle_event` still
returns `Ok(())`, so later queued events are dispatched as well. -/
theorem handlers_in_registration_order_and_isolated {R E : Type}
    (bus : MessageBus R E) :
    (∀ (hs : List (EvHandler R E)) (msg : Msg) (q : List Msg),
       ∃ k, (bus.runHandlers hs msg q).2 =
         (hs.take k).map fun g => TraceEntry.invoke g.hid msg) ∧
    (∀ (h : EvHandler R E) (rest : List (EvHandler R E)) (msg : Msg)
       (q : List Msg) (e : E),
       (h.run msg).1 = .error e →
       bus.toBase e ≠ .StopSentinel →
       (∀ X, bus.toBase e ≠ .StopSentinelWithEvent X) →
       bus.runHandlers (h :: rest) msg q =
         ((bus.runHandlers rest msg (q ++ (h.run msg).2)).1,
          .invoke h.hid msg :: (bus.runHandlers rest msg (q ++ (h.run msg).2)).2)) ∧
    (∀ (msg : Msg) (q : List Msg) (hs : List (EvHandler R E)),
       bus.event_handler msg.topic = some hs →
       (bus.handle_event msg q).1 = .ok ()) := by
  refine ⟨bus.runHandlers_trace_take,
    fun h rest msg q e herr hss hsw =>
      bus.runHandlers_cons_other h rest msg q e herr hss hsw, ?_⟩
  intro msg q hs hreg
  simp [MessageBus.handle_event, hreg]

/-- Witness for C7 on the concrete bus: `hFailW` fails with the plain
domain error `Custom 7`, yet the loop continues into `[hOkW]`, and
`handle_event` on the registered topic `"A"` returns `Ok(())`. -/
theorem handlers_in_registration_order_and_isolated_witness :
    (hFailW.run evAW).1 = .error (.Custom 7) ∧
    busW.runHandlers (hFailW :: [hOkW]) evAW [] =
      ((busW.runHandlers [hOkW] evAW ([] ++ (hFailW.run evAW).2)).1,
       .invoke hFailW.hid evAW ::
         (busW.runHandlers [hOkW] evAW ([] ++ (hFailW.run evAW).2)).2) ∧
    busW.event_handler evAW.topic = some [hFailW, hPushW, hOkW] ∧
    (busW.handle_event evAW []).1 = .ok () :=
  ⟨rfl,
    (handlers_in_registration_order_and_isolated busW).2.1 hFailW [hOkW] evAW []
      (.Custom 7) rfl (by simp [busW, to_base]) (by simp [busW, to_base]),
    rfl,
    (handlers_in_registration_order_and_isolated busW).2.2 evAW []
      [hFailW, hPushW, hOkW] rfl⟩

/-- C8: dispatching an event whose topic has no registry entry makes
`handle_event` fail with `E::from(BaseError::EventNotFound)` without
invoking any handler or touching the queue; the drain loop logs the
error and continues with the remaining queued events; and the command's
result is still returned successfully by `handle`. -/
theorem event_not_found_contained {R E : Type} (bus : MessageBus R E)
    (msg : Msg) (q : List Msg) (fuel : Nat) (c : Cmd) (ch : CmdHandler R E)
    (r : R) (pushes : List Msg)
    (hreg : bus.event_handler msg.topic = none)
    (hcmd : bus.command_handler c.cid = some ch)
    (hrun : ch.run c = (.ok r, pushes)) :
    bus.handle_event msg q = (.error (bus.fromBase .EventNotFound), q, []) ∧
    bus.drain (fuel + 1) (msg :: q) =
      .dispatch msg :: .evError (bus.fromBase .EventNotFound) :: bus.drain fuel q ∧
    (bus.handle c fuel).1 = .ok r := by
  refine ⟨by simp [MessageBus.handle_event, hreg],
    bus.drain_succ_not_found fuel msg q hreg, ?_⟩
  simp [MessageBus.handle, hcmd, hrun]

/-- Witness for C8 on the concrete bus: the ghost topic `"G"` has no
handlers, the drain loop logs `EventNotFound` and moves on, and the
command registered at type identity 1 still returns its own `Ok`. -/
theorem event_not_found_contained_witness :
    busW.event_handler evGW.topic = none ∧
    busW.command_handler (Cmd.mk 1 2).cid = some chOkW ∧
    chOkW.run (Cmd.mk 1 2) = (.ok 42, [evAW, evGW]) ∧
    (busW.handle_event evGW [evBW] =
       (.error (busW.fromBase .EventNotFound), [evBW], []) ∧
     busW.drain (4 + 1) (evGW :: [evBW]) =
       .dispatch evGW :: .evError (busW.fromBase .EventNotFound) ::
         busW.drain 4 [evBW] ∧
     (busW.handle (Cmd.mk 1 2) 4).1 = .ok 42) :=
  ⟨rfl, rfl, rfl,
    event_not_found_contained busW evGW [evBW] 4 (Cmd.mk 1 2) chOkW 42
      [evAW, evGW] rfl rfl rfl⟩

/-- C9: for an event type derived with the `Message` macro and
registered through `init_event_handler`, the topic its instances report
equals the key its handler list is stored under (both are the
stringified type name), so looking the handlers up by the reported
topic never misses for a registered type. -/
theorem derived_topic_matches_registration_key {R E : Type}
    (regs : List (String × List (EvHandler R E))) (n : String)
    (hmem : n ∈ regs.map Prod.fst) :
    derived_topic n = event_registration_key n ∧
    build_event_handler regs (derived_topic n) ≠ none := by
  refine ⟨rfl, ?_⟩
  obtain ⟨⟨k, hs⟩, hkv, hk⟩ := List.mem_map.mp hmem
  exact foldl_insert_lookup_ne_none regs _ n
    (.inl ⟨hs, by rw [← hk]; exact hkv⟩)

/-- Witness for C9: a registry with two event types; the type named
`"A"` is registered and is found under its derived topic. -/
theorem derived_topic_matches_registration_key_witness :
    "A" ∈ ([("A", [hFailW, hPushW, hOkW]), ("B", [hOkW])].map Prod.fst) ∧
    (derived_topic "A" = event_registration_key "A" ∧
     build_event_handler [("A", [hFailW, hPushW, hOkW]), ("B", [hOkW])]
       (derived_topic "A") ≠ none) :=
  ⟨by simp,
    derived_topic_matches_registration_key
      [("A", [hFailW, hPushW, hOkW]), ("B", [hOkW])] "A" (by simp)⟩

/-- C10: `handle_event` returns `Ok(())` for every event whose topic is
registered, however its handlers fail; conversely the only error it can
return — and so the only way the drain loop's error-logging branch
fires — is `E::from(BaseError::EventNotFound)` for an unregistered
topic. -/
theorem handle_event_ok_for_registered_topics {R E : Type}
    (bus : MessageBus R E) (msg : Msg) (q : List Msg) :
    (∀ hs, bus.event_handler msg.topic = some hs →
       (bus.handle_event msg q).1 = .ok ()) ∧
    (∀ e, (bus.handle_event msg q).1 = .error e →
       bus.event_handler msg.topic = none ∧ e = bus.fromBase .EventNotFound) := by
  constructor
  · intro hs hreg
    simp [MessageBus.handle_event, hreg]
  · intro e herr
    cases hreg : bus.event_handler msg.topic with
    | none =>
      refine ⟨rfl, ?_⟩
      simp only [MessageBus.handle_event, hreg, Except.error.injEq] at herr
      exact herr.symm
    | some hs => simp [MessageBus.handle_event, hreg] at herr

/-- Witness for C10: topic `"A"` is registered (with a failing handler
in its list) and `handle_event` still returns `Ok(())`. -/
theorem handle_event_ok_for_registered_topics_witness :
    busW.event_handler evAW.topic = some [hFailW, hPushW, hOkW] ∧
    (busW.handle_event evAW [evBW]).1 = .ok () :=
  ⟨rfl, (handle_event_ok_for_registered_topics busW evAW [evBW]).1
    [hFailW, hPushW, hOkW] rfl⟩
